import Mathlib

/-!
Shallow embedding of the Solana wallet tracker bot (`src/index.js`) and
verification of the spec's claims about it.

Conventions used throughout:
* JS `Date.now()` timestamps are natural numbers (milliseconds).
* Fallible JS code is embedded with `Option`/`Except`; a caught exception
  that makes a function return `null`/`[]` is embedded as the same value.
* Network calls (RPC responses, Telegram deliveries) are supplied as
  explicit oracle inputs, since the embedding only concerns the local
  control flow the spec describes.
-/

namespace SolanaTracker

/-- `charsStart l sub`: `sub` is an initial run of `l`. -/
def charsStart : List Char → List Char → Bool
  | _, [] => true
  | [], _ :: _ => false
  | c :: cs, d :: ds => c == d && charsStart cs ds

/-- `charsHave l sub`: `sub` occurs contiguously somewhere in `l`. -/
def charsHave : List Char → List Char → Bool
  | [], sub => charsStart [] sub
  | c :: cs, sub => charsStart (c :: cs) sub || charsHave cs sub

/-- Models JS `s.includes(sub)`: true iff `sub` occurs as a contiguous
substring of `s` (the empty `sub` is found everywhere, as in JS). -/
def strIncludes (s sub : String) : Bool := charsHave s.data sub.data

/-- The `CONFIG` object of `src/index.js`, as a structure so that theorems can
also quantify over the configuration surface the spec describes. -/
structure Config where
  trackedWallets : List String
  knownDexPrograms : List String
  rpcEndpoints : List String
  rateCapacity : Int
  rateWindow : Nat
  updateInterval : Nat
  cacheExpiry : Nat
  maxRetries : Nat
  batchSize : Nat
  minTokenAmount : ℚ
deriving DecidableEq

/-- The concrete `CONFIG` values of `src/index.js` (lines 18-35). -/
def CONFIG : Config :=
  { trackedWallets := []
    knownDexPrograms :=
      [ "9xQeWvG816bUx9EPjHmaT23yvVM2ZWbrrpZb9PusVFin"
      , "675kPX9MHTjS2zt1qfr1NYHuzeLXfQM9H24wFSUt1Mp8"
      , "JUP4Fb2cqiRUcaTHdrPC8h2gNsA2ETXiPDD33WcGuJB" ]
    rpcEndpoints := ["https://api.mainnet-beta.solana.com"]
    rateCapacity := 5
    rateWindow := 1000
    updateInterval := 120000
    cacheExpiry := 3600000
    maxRetries := 3
    batchSize := 2
    minTokenAmount := 100 }

/-! ## Rate limiter (`class RateLimiter`, lines 38-67) -/

/-- The mutable fields of a `RateLimiter` instance. `tokens` is an `Int`
mirroring the JS number and the `this.tokens <= 0` test. -/
structure RateLimiter where
  tokens : Int
  maxTokens : Int
  timeWindow : Nat
  lastRefill : Nat
deriving DecidableEq

/-- `new RateLimiter(requestsPerSecond, timeWindow)` at construction time `now`. -/
def RateLimiter.init (requestsPerSecond : Int) (timeWindow : Nat) (now : Nat) :
    RateLimiter :=
  { tokens := requestsPerSecond
    maxTokens := requestsPerSecond
    timeWindow := timeWindow
    lastRefill := now }

/-- The refill step at the top of `getToken`: if more than `timeWindow` ms
passed since the last refill, reset the bucket to full and restart the clock. -/
def refillCheck (s : RateLimiter) (now : Nat) : RateLimiter :=
  if s.timeWindow < now - s.lastRefill then
    { s with tokens := s.maxTokens, lastRefill := now }
  else s

/-- The earliest time the `setTimeout` in the wait branch of `getToken` can
fire: `now + max(0, timeWindow - (now - lastRefill))`. -/
def wakeTarget (s : RateLimiter) (now : Nat) : Nat :=
  now + (max 0 ((s.timeWindow : Int) - ((now : Int) - (s.lastRefill : Int)))).toNat

/-- `RateLimiter.getToken`, embedded with explicit time. `now` is the time the
call (or a recursive self-call) runs; `wakes` lists the actual times at which
the pending `setTimeout` callbacks fire — each must be no earlier than the
scheduled delay, which is all JS guarantees. `fuel` bounds the recursion depth
(the JS recursion is unbounded); `none` means the given fuel or wake schedule
did not let the call finish. On success it returns the new limiter state and
the time at which the call returned. -/
def getToken : Nat → RateLimiter → Nat → List Nat → Option (RateLimiter × Nat)
  | 0, _, _, _ => none
  | fuel + 1, s, now, wakes =>
    let s1 := refillCheck s now
    if s1.tokens ≤ 0 then
      match wakes with
      | [] => none
      | w :: rest =>
        if wakeTarget s1 now ≤ w then getToken fuel s1 w rest else none
    else
      some ({ s1 with tokens := s1.tokens - 1 }, now)

/-! ## Transaction cache (`class TransactionCache`, lines 70-107) -/

/-- One value stored in the cache `Map`: lines 77-80. -/
structure CacheEntry (α : Type) where
  data : α
  timestamp : Nat
deriving DecidableEq

/-- A `TransactionCache` instance: the backing JS `Map` as an insertion-ordered
association list (unique keys by construction of `Map.set`), plus the expiry. -/
structure TransactionCache (α : Type) where
  entries : List (String × CacheEntry α)
  expiryTime : Nat
deriving DecidableEq

/-- JS `Map.set` on the backing list: update the existing binding in place,
otherwise append a new one. -/
def mapSet {α : Type} : List (String × CacheEntry α) → String → CacheEntry α →
    List (String × CacheEntry α)
  | [], key, e => [(key, e)]
  | p :: rest, key, e =>
    if p.1 == key then (key, e) :: rest else p :: mapSet rest key e

/-- `TransactionCache.set(key, value)` stamped with the current time. -/
def TransactionCache.set {α : Type} (c : TransactionCache α) (key : String)
    (value : α) (now : Nat) : TransactionCache α :=
  { c with entries := mapSet c.entries key ⟨value, now⟩ }

/-- `TransactionCache.get(key)` at time `now`: `none` on a missing key; on a
present key older than `expiryTime` the entry is deleted and `none` returned;
otherwise the stored data. Returns the possibly-mutated cache as well. -/
def TransactionCache.get {α : Type} (c : TransactionCache α) (key : String)
    (now : Nat) : Option α × TransactionCache α :=
  match c.entries.find? (fun e => e.1 == key) with
  | none => (none, c)
  | some item =>
    if c.expiryTime < now - item.2.timestamp then
      (none, { c with entries := c.entries.filter (fun p => p.1 != key) })
    else
      (some item.2.data, c)

/-- `TransactionCache.clean()` at time `now`: delete every entry strictly older
than `expiryTime`. -/
def TransactionCache.clean {α : Type} (c : TransactionCache α) (now : Nat) :
    TransactionCache α :=
  { c with entries :=
      c.entries.filter (fun p => !decide (c.expiryTime < now - p.2.timestamp)) }

/-- `TransactionCache.size()`. -/
def TransactionCache.size {α : Type} (c : TransactionCache α) : Nat :=
  c.entries.length

/-! ## Retry / failover controller (`retryOperation`, lines 142-169, and
`rotateRpcEndpoint`, lines 136-140) -/

/-- One invocation of the wrapped operation: either a resolved value or a
rejected promise carrying an error message. -/
inductive OpResult (α : Type) where
  | ok (v : α)
  | err (msg : String)
deriving DecidableEq

/-- What `retryOperation` does as a whole: return a value or throw. A thrown
`none` models JS `throw lastError` with `lastError` still `undefined`
(reachable only when `maxRetries` is zero). -/
inductive RetryOutcome (α : Type) where
  | value (v : α)
  | thrown (msg : Option String)
deriving DecidableEq

/-- Observable trace of one `retryOperation` run: how many times the wrapped
operation was invoked, the backoff delays slept (in order), the current RPC
endpoint cursor, and how many times `rotateRpcEndpoint` was called. -/
structure RetryTrace where
  calls : Nat
  delays : List Nat
  rpcIndex : Nat
  rotations : Nat
deriving DecidableEq

/-- The rate-limit classification on line 151-153:
`error.message.includes("429") || error.message.includes("Too many requests")`. -/
def isRateLimitMsg (m : String) : Bool :=
  strIncludes m "429" || strIncludes m "Too many requests"

/-- `rotateRpcEndpoint` (lines 136-140), acting on the endpoint cursor. The
`initializeConnection` side effect re-creates the connection and is not
otherwise observable here. -/
def rotateRpcEndpoint (cfg : Config) (i : Nat) : Nat :=
  (i + 1) % cfg.rpcEndpoints.length

/-- The backoff delay on line 156: `Math.min(1000 * Math.pow(2, attempt), 8000)`. -/
def backoffDelay (attempt : Nat) : Nat := min (1000 * 2 ^ attempt) 8000

/-- The `for (let attempt = 1; attempt <= CONFIG.maxRetries; attempt++)` loop
of `retryOperation`. `ops n` is the outcome of the `(n+1)`-th invocation of the
wrapped operation; `fuel` counts the loop iterations still allowed
(`maxRetries - attempt + 1`), so `fuel = 0` is loop exit, where the last error
is thrown. The rate-limiter token acquired before each invocation only paces
the call and is not part of the observable trace. -/
def retryLoop {α : Type} (cfg : Config) (ops : Nat → OpResult α) :
    Nat → Nat → Option String → RetryTrace → RetryOutcome α × RetryTrace
  | 0, _, lastError, tr => (.thrown lastError, tr)
  | fuel + 1, attempt, _, tr =>
    match ops tr.calls with
    | .ok v => (.value v, { tr with calls := tr.calls + 1 })
    | .err m =>
      let tr1 := { tr with calls := tr.calls + 1 }
      if isRateLimitMsg m then
        retryLoop cfg ops fuel (attempt + 1) (some m)
          { tr1 with
            delays := tr1.delays ++ [backoffDelay attempt]
            rpcIndex := rotateRpcEndpoint cfg tr1.rpcIndex
            rotations := tr1.rotations + 1 }
      else if strIncludes m "fetch failed" then
        retryLoop cfg ops fuel (attempt + 1) (some m) tr1
      else
        (.thrown (some m), tr1)

/-- `retryOperation(operation, context)` starting from endpoint cursor
`rpcIndex0`. -/
def retryOperation {α : Type} (cfg : Config) (ops : Nat → OpResult α)
    (rpcIndex0 : Nat) : RetryOutcome α × RetryTrace :=
  retryLoop cfg ops cfg.maxRetries 1 none ⟨0, [], rpcIndex0, 0⟩

/-! ## Token-transfer parsing (`parseTokenTransfer`, lines 171-233, and
`identifyDex`, lines 235-249) -/

/-- A `uiTokenAmount` as read by the parser. `amount = none` models a missing
or empty (falsy) `amount` string; `some q` models a present string whose
`Number(...)` value is `q`. `decimals = none` models a missing field. -/
structure UiTokenAmount where
  amount : Option ℚ
  decimals : Option Nat
deriving DecidableEq

/-- One entry of `meta.preTokenBalances` / `meta.postTokenBalances`. -/
structure TokenBalance where
  accountIndex : Nat
  mint : String
  uiTokenAmount : UiTokenAmount
deriving DecidableEq

/-- `tx.transaction.message` with the account keys already rendered to base58
strings (the `map` on lines 193-195 normalizes both representations). -/
structure TxMessage where
  accountKeys : List String
deriving DecidableEq

/-- `tx.meta`; either balance array may be absent (falsy guard on lines
186-189). A present empty array passes the guard. -/
structure TxMeta where
  postTokenBalances : Option (List TokenBalance)
  preTokenBalances : Option (List TokenBalance)
deriving DecidableEq

/-- A fetched transaction. `message = none` models an absent
`tx.transaction.message`. -/
structure SolTx where
  message : Option TxMessage
  meta : Option TxMeta
  blockTime : Option Nat
deriving DecidableEq

/-- One record pushed onto `tokenTransfers` (lines 217-224). `receiver` is
`accountKeys[postBalance.accountIndex]`, which is `undefined` (here `none`)
when the index is out of range. -/
structure TokenTransfer where
  mint : String
  amount : ℚ
  receiver : Option String
  decimals : Nat
deriving DecidableEq

/-- The `for (const postBalance of meta.postTokenBalances)` loop of
`parseTokenTransfer` (lines 205-226). A post balance is skipped when no pre
balance shares its `accountIndex`, when its own amount is falsy, or — because
`Number(undefined)` is `NaN` and `NaN > threshold` is false — when the matched
pre balance has no amount. A qualifying strictly-positive change above
`CONFIG.minTokenAmount` yields a transfer with the decimal-adjusted amount
`balanceChange / 10 ^ (decimals || 0)`. -/
def extractTransfers (cfg : Config) (accountKeys : List String)
    (posts pres : List TokenBalance) : List TokenTransfer :=
  posts.filterMap (fun post =>
    match pres.find? (fun pre => pre.accountIndex == post.accountIndex) with
    | none => none
    | some pre =>
      match post.uiTokenAmount.amount with
      | none => none
      | some postAmt =>
        match pre.uiTokenAmount.amount with
        | none => none
        | some preAmt =>
          let balanceChange := postAmt - preAmt
          if cfg.minTokenAmount < balanceChange then
            some { mint := post.mint
                   amount := balanceChange / 10 ^ (post.uiTokenAmount.decimals.getD 0)
                   receiver := accountKeys.get? post.accountIndex
                   decimals := post.uiTokenAmount.decimals.getD 0 }
          else none)

/-- `parseTokenTransfer(tx, meta)`: `none` models the `return null` paths
(missing message or balance arrays, no known DEX program among the account
keys, or no qualifying transfer). The unused inner `fetchMemeCoins` helper is
dead code and is not embedded. -/
def parseTokenTransfer (cfg : Config) (tx : SolTx) (meta : Option TxMeta) :
    Option (List TokenTransfer) :=
  match tx.message, meta with
  | some msg, some m =>
    match m.postTokenBalances, m.preTokenBalances with
    | some posts, some pres =>
      if msg.accountKeys.any (fun key => cfg.knownDexPrograms.contains key) then
        let tokenTransfers := extractTransfers cfg msg.accountKeys posts pres
        if 0 < tokenTransfers.length then some tokenTransfers else none
      else none
    | _, _ => none
  | _, _ => none

/-- JS `list[i]` followed by `includes`: false when the index is out of range
(`includes(undefined)` finds nothing among strings). -/
def containsIdx (programIds : List String) (progs : List String) (i : Nat) : Bool :=
  match progs.get? i with
  | some p => programIds.contains p
  | none => false

/-- `identifyDex(tx)` (lines 235-249): priority match of the three known DEX
programs; any thrown property access (absent message) is caught and yields
"Unknown DEX". -/
def identifyDex (cfg : Config) (tx : SolTx) : String :=
  match tx.message with
  | none => "Unknown DEX"
  | some msg =>
    let programIds := msg.accountKeys
    if containsIdx programIds cfg.knownDexPrograms 0 then "Raydium"
    else if containsIdx programIds cfg.knownDexPrograms 1 then "Orca"
    else if containsIdx programIds cfg.knownDexPrograms 2 then "Jupiter"
    else "Unknown DEX"

/-! ## Wallet fetch (`getWalletTransactions`, lines 251-342) -/

/-- A canonical transaction record as assembled on lines 296-311. `amount` and
`tokenMint` are kept optional to match the spec's data model, in which they
are nullable. -/
structure TxRecord where
  wallet : String
  signature : String
  type : String
  timestamp : String
  status : String
  amount : Option ℚ
  receiver : Option String
  tokenMint : Option String
  dex : String
  createdAt : Nat
deriving DecidableEq

/-- Models luxon's fixed-format timestamp rendering. The exact text is
display-only and no claim depends on it, so the embedding renders the raw
time value decimally. -/
def formatTimestamp (t : Nat) : String := toString t

/-- The RPC responses one polling cycle observes, supplied as an oracle:
`signaturesFor a` is the (successful) `getSignaturesForAddress` result for
address `a`; `getTx s` is the `getTransaction` result for signature `s`, where
`none` covers both a `null` response and a per-signature error that the inner
`catch` (lines 312-318) turns into `null`. -/
structure RpcOracle where
  signaturesFor : String → List String
  getTx : String → Option SolTx

/-- The record construction on lines 296-311: one `TxRecord` per extracted
transfer. -/
def buildRecords (cfg : Config) (walletAddress sig : String) (tx : SolTx)
    (now : Nat) (transfers : List TokenTransfer) : List TxRecord :=
  transfers.map (fun transfer =>
    { wallet := walletAddress
      signature := sig
      type := "TOKEN_PURCHASE"
      timestamp :=
        match tx.blockTime with
        | some bt => formatTimestamp bt
        | none => formatTimestamp now
      status := "confirmed"
      amount := some transfer.amount
      receiver := transfer.receiver
      tokenMint := some transfer.mint
      dex := identifyDex cfg tx
      createdAt := now })

/-- The per-signature body of the batch loop (lines 281-319): fetch the
transaction, parse it, and build records; `none` models every `return null`
path. -/
def processSignature (cfg : Config) (oracle : RpcOracle) (walletAddress : String)
    (now : Nat) (sig : String) : Option (List TxRecord) :=
  match oracle.getTx sig with
  | none => none
  | some tx =>
    match parseTokenTransfer cfg tx tx.meta with
    | none => none
    | some tokenTransfers =>
      some (buildRecords cfg walletAddress sig tx now tokenTransfers)

/-- `getWalletTransactions()` (lines 251-342). The function declares no
parameter, so the wallet the caller passes on line 379 — `walletArg` here — is
ignored; instead `Math.random()` selects an index `randIdx` into
`CONFIG.trackedWallets`, and an out-of-range pick makes `new PublicKey` throw,
which the outer catch converts into an empty result. The signature filter
threads the cache because `TransactionCache.get` lazily deletes expired
entries. Batching (`batchSize` chunks with an inter-batch pause) only paces
the requests, so the per-signature results are accumulated in order. Returns
the collected records and the updated cache. -/
def getWalletTransactions (cfg : Config) (oracle : RpcOracle)
    (cache : TransactionCache TxRecord) (randIdx : Nat) (now : Nat)
    (walletArg : String) : List TxRecord × TransactionCache TxRecord :=
  let _ := walletArg
  match cfg.trackedWallets.get? randIdx with
  | none => ([], cache)
  | some walletAddress =>
    let signatures := oracle.signaturesFor walletAddress
    let filtered := signatures.foldl
      (fun (acc : List String × TransactionCache TxRecord) sig =>
        let r := acc.2.get sig now
        (if r.1.isNone then acc.1 ++ [sig] else acc.1, r.2))
      ([], cache)
    let newSignatures := filtered.1
    let cache0 := filtered.2
    if newSignatures.length = 0 then ([], cache0)
    else
      let allTransactions :=
        (newSignatures.filterMap
          (fun sig => processSignature cfg oracle walletAddress now sig)).flatten
      let cache1 := allTransactions.foldl
        (fun c tx => c.set tx.signature tx now) cache0
      (allTransactions, cache1)

/-! ## Alert formatting (`formatAlert`, lines 344-368) -/

/-- JS `s.slice(0, n)` for `0 ≤ n`. -/
def jsSliceTake (s : String) (n : Nat) : String := ⟨s.data.take n⟩

/-- JS `s.slice(-n)` for `0 < n`: the last `n` characters (the whole string
when it is shorter than `n`). -/
def jsSliceLast (s : String) (n : Nat) : String :=
  ⟨s.data.drop (s.data.length - n)⟩

/-- Digit grouping on a reversed digit list: a comma after every three digits. -/
def groupRev : List Char → List Char
  | c1 :: c2 :: c3 :: c4 :: rest => c1 :: c2 :: c3 :: ',' :: groupRev (c4 :: rest)
  | l => l

/-- `Number.prototype.toLocaleString()` for the values the alerts render:
integers are written with default-locale thousands grouping; non-integer
rationals no claim exercises fall back to the plain rendering. -/
def ratLocaleString (q : ℚ) : String :=
  if q.den = 1 then
    let digits := (toString q.num.natAbs).data
    (if q.num < 0 then "-" else "") ++ ⟨(groupRev digits.reverse).reverse⟩
  else toString q

/-- The per-transaction block appended inside `transactions.forEach`
(lines 351-365). Accessing `slice` on a null `tokenMint` or
`toLocaleString` on a null `amount` throws a `TypeError`, embedded as
`Except.error`; the mint access happens first, as in the source. -/
def txBlock (tx : TxRecord) : Except String String :=
  let walletShort := jsSliceTake tx.wallet 6 ++ "..." ++ jsSliceLast tx.wallet 4
  match tx.tokenMint with
  | none => .error "TypeError: tokenMint is null"
  | some mint =>
    let tokenShort := jsSliceTake mint 6 ++ "..." ++ jsSliceLast mint 4
    match tx.amount with
    | none => .error "TypeError: amount is null"
    | some amt =>
      .ok ("*Wallet:* `" ++ walletShort ++ "`\n"
        ++ "*DEX:* " ++ tx.dex ++ "\n"
        ++ "*Time:* " ++ tx.timestamp ++ "\n"
        ++ "*Token:* `" ++ tokenShort ++ "`\n"
        ++ "*Amount:* " ++ ratLocaleString amt ++ " tokens\n"
        ++ "[View Transaction](https://solscan.io/tx/" ++ tx.signature ++ ")\n"
        ++ "[View Token](https://solscan.io/token/" ++ mint ++ ")\n"
        ++ "➖➖➖➖➖➖➖➖➖➖\n")

/-- `formatAlert(transactions)`: the fixed no-activity payload on an empty
input, otherwise the header plus one block per transaction; a thrown
`TypeError` from a block propagates out of the function. -/
def formatAlert (transactions : List TxRecord) : Except String String :=
  if transactions.length = 0 then
    .ok "🔍 No new token purchases detected."
  else
    transactions.foldlM (fun msg tx => (txBlock tx).map (fun b => msg ++ b))
      "🚨 *New Token Purchases Detected* 🚨\n\n"

/-! ## Fan-out dispatch (inside `start`, lines 386-400) and the subscriber
set (lines 408-414) -/

/-- The outcome `bot.sendMessage(chatId, ...)` resolves or rejects with:
`errStatus` carries `err.response?.statusCode` (absent response gives
`none`). -/
inductive SendResult where
  | ok
  | errStatus (code : Option Nat)
deriving DecidableEq

/-- Whether a failed delivery carries the `statusCode === 403` signal that
makes the catch handler drop the subscriber. -/
def isForbidden : SendResult → Bool
  | .errStatus (some c) => c == 403
  | _ => false

/-- The dispatch fragment of the tracker loop: every current subscriber
(`Array.from(this.subscribers)`, a snapshot) gets a delivery attempt whose
own `catch` isolates its failure; a 403 failure deletes that subscriber from
the live set. Returns the ordered list of attempted deliveries and the
subscriber set after the cycle. The subscriber set is the JS `Set` in
insertion order. -/
def dispatchAlert (send : Int → SendResult) (subscribers : List Int) :
    List Int × List Int :=
  subscribers.foldl
    (fun (acc : List Int × List Int) chatId =>
      ( acc.1 ++ [chatId]
      , match send chatId with
        | .ok => acc.2
        | .errStatus code =>
          if code == some 403 then acc.2.erase chatId else acc.2 ))
    ([], subscribers)

/-- `addSubscriber(chatId)`: JS `Set.add` — append if absent, else no-op. -/
def addSubscriber (subscribers : List Int) (chatId : Int) : List Int :=
  if subscribers.contains chatId then subscribers else subscribers ++ [chatId]

/-- `removeSubscriber(chatId)`: JS `Set.delete` — returns whether the element
was present and removes it. -/
def removeSubscriber (subscribers : List Int) (chatId : Int) :
    Bool × List Int :=
  (subscribers.contains chatId, subscribers.erase chatId)

/-! ## Helper lemmas -/

/-- `mapSet` always leaves the written binding as the first (hence found)
occurrence of its key. -/
lemma find?_mapSet {α : Type} (l : List (String × CacheEntry α)) (key : String)
    (e : CacheEntry α) :
    (mapSet l key e).find? (fun p => p.1 == key) = some (key, e) := by
  induction l with
  | nil => simp [mapSet, List.find?]
  | cons p rest ih =>
    by_cases h : p.1 = key
    · simp [mapSet, h, List.find?]
    · have hb : (p.1 == key) = false := by simpa using h
      simp [mapSet, hb, List.find?, ih]

/-- The keys after `mapSet`: unchanged when the key was present, else the key
is appended. -/
lemma mapSet_keys {α : Type} (l : List (String × CacheEntry α)) (key : String)
    (e : CacheEntry α) :
    (mapSet l key e).map Prod.fst =
      if key ∈ l.map Prod.fst then l.map Prod.fst else l.map Prod.fst ++ [key] := by
  induction l with
  | nil => simp [mapSet]
  | cons p rest ih =>
    by_cases h : p.1 = key
    · simp [mapSet, h]
    · have hb : (p.1 == key) = false := by simpa using h
      have hne : ¬ key = p.1 := fun hk => h hk.symm
      by_cases hk : key ∈ rest.map Prod.fst <;>
        simp [mapSet, hb, ih, hne, hk]

/-- `mapSet` preserves key uniqueness. -/
lemma mapSet_keys_nodup {α : Type} (l : List (String × CacheEntry α))
    (key : String) (e : CacheEntry α) (h : (l.map Prod.fst).Nodup) :
    ((mapSet l key e).map Prod.fst).Nodup := by
  rw [mapSet_keys]
  by_cases hk : key ∈ l.map Prod.fst
  · simpa [hk] using h
  · simp only [hk, if_false]
    refine List.Nodup.append h (List.nodup_singleton key) ?_
    intro a ha hb2
    rw [List.mem_singleton] at hb2
    subst hb2
    exact hk ha

/-- With unique keys, the pair `find?` locates for a key is the only pair in
the list carrying that key. -/
lemma nodup_keys_find?_unique {α : Type} (key : String) :
    ∀ (l : List (String × CacheEntry α)) (p q : String × CacheEntry α),
      (l.map Prod.fst).Nodup →
      l.find? (fun r => r.1 == key) = some p →
      q ∈ l → q.1 = key → q = p := by
  intro l
  induction l with
  | nil => intro p q _ _ hq _; simp at hq
  | cons a rest ih =>
    intro p q h hfind hq hqk
    have hnd := List.nodup_cons.mp h
    by_cases hak : a.1 = key
    · have hb : (a.1 == key) = true := by simpa using hak
      simp only [List.find?, hb] at hfind
      obtain rfl : a = p := by injection hfind
      rcases List.mem_cons.mp hq with rfl | hqr
      · rfl
      · have hmem : q.1 ∈ rest.map Prod.fst := List.mem_map_of_mem Prod.fst hqr
        rw [hqk, ← hak] at hmem
        exact absurd hmem hnd.1
    · have hb : (a.1 == key) = false := by simpa using hak
      simp only [List.find?, hb] at hfind
      rcases List.mem_cons.mp hq with rfl | hqr
      · exact absurd hqk hak
      · exact ih p q hnd.2 hfind hqr hqk

/-- After the lazy delete in `TransactionCache.get`, no pair with the deleted
key remains findable. -/
lemma find?_filter_ne_key {α : Type} (l : List (String × CacheEntry α))
    (key : String) :
    (l.filter (fun p => p.1 != key)).find? (fun p => p.1 == key) = none := by
  rw [List.find?_eq_none]
  intro x hx
  have hf := (List.mem_filter.mp hx).2
  simpa using hf

/-! ## Claim theorems -/

/-- C3 counterexample: with the configured expiry, a signature inserted at
time 0 and queried at exactly time `expiry` is still a HIT (the code's check
is strict `>`), and a `clean` run at exactly time `expiry` keeps the entry —
the claim asserts a miss and removal at every query time ≥ `t + expiry`. -/
theorem c3_counterexample :
    ((TransactionCache.set ⟨[], CONFIG.cacheExpiry⟩ "s" (0 : Nat) 0).get "s"
        CONFIG.cacheExpiry).1 = some 0
    ∧ ((TransactionCache.set ⟨[], CONFIG.cacheExpiry⟩ "s" (0 : Nat) 0).clean
        CONFIG.cacheExpiry).entries.find? (fun p => p.1 == "s") ≠ none := by
  decide

/-- C3 (amended): for a signature inserted at time `t`, `get` hits at every
query time `q` with `q - t ≤ expiry` (leaving the cache unchanged), misses at
every `q` with `q - t > expiry` while deleting the entry, and a `clean` run at
any such `q` removes it. The closed end of the hit interval is `t + expiry`
inclusive, not exclusive as the claim stated. -/
theorem c3_cache_expiry {α : Type} (c : TransactionCache α) (key : String)
    (v : α) (t q : Nat) (hnd : (c.entries.map Prod.fst).Nodup) (htq : t ≤ q) :
    (q - t ≤ c.expiryTime →
      ((c.set key v t).get key q).1 = some v
      ∧ ((c.set key v t).get key q).2 = c.set key v t)
    ∧ (c.expiryTime < q - t →
      ((c.set key v t).get key q).1 = none
      ∧ ((c.set key v t).get key q).2.entries.find? (fun p => p.1 == key) = none)
    ∧ (c.expiryTime < q - t →
      ((c.set key v t).clean q).entries.find? (fun p => p.1 == key) = none) := by
  have hfind : (c.set key v t).entries.find? (fun p => p.1 == key)
      = some (key, ⟨v, t⟩) := find?_mapSet c.entries key ⟨v, t⟩
  have hexp : (c.set key v t).expiryTime = c.expiryTime := rfl
  refine ⟨?_, ?_, ?_⟩
  · intro hq
    have hlt : ¬ (c.set key v t).expiryTime < q - t := by
      rw [hexp]; omega
    simp [TransactionCache.get, hfind, hlt]
  · intro hq
    have hlt : (c.set key v t).expiryTime < q - t := by rw [hexp]; exact hq
    constructor
    · simp [TransactionCache.get, hfind, hlt]
    · simp only [TransactionCache.get, hfind, hlt, if_pos]
      exact find?_filter_ne_key _ key
  · intro hq
    have hnd1 : ((c.set key v t).entries.map Prod.fst).Nodup :=
      mapSet_keys_nodup c.entries key ⟨v, t⟩ hnd
    rw [List.find?_eq_none]
    intro x hx
    have hx1 := List.mem_filter.mp hx
    intro hbeq
    have hxk : x.1 = key := by simpa using hbeq
    have hxe : x = (key, ⟨v, t⟩) :=
      nodup_keys_find?_unique key (c.set key v t).entries _ x hnd1 hfind hx1.1 hxk
    have hpred := hx1.2
    rw [hxe] at hpred
    simp [TransactionCache.clean, hexp] at hpred
    omega

/-- C10: on a duplicate-free subscriber set, `removeSubscriber c` reports
membership of `c` and leaves exactly the other members; `addSubscriber c` on
the result restores exactly `S ∪ {c}`; adding an already-present id is a
no-op. -/
theorem c10_subscriber_set (S : List Int) (c : Int) (hnd : S.Nodup) :
    ((removeSubscriber S c).1 = true ↔ c ∈ S)
    ∧ (∀ x, x ∈ (removeSubscriber S c).2 ↔ x ∈ S ∧ x ≠ c)
    ∧ (∀ x, x ∈ addSubscriber (removeSubscriber S c).2 c ↔ x ∈ S ∨ x = c)
    ∧ (c ∈ S → addSubscriber S c = S) := by
  refine ⟨?_, ?_, ?_, ?_⟩
  · simp [removeSubscriber]
  · intro x
    rw [show (removeSubscriber S c).2 = S.erase c from rfl, hnd.mem_erase_iff]
    tauto
  · intro x
    have hce : c ∉ S.erase c := by
      rw [hnd.mem_erase_iff]; simp
    have hcont : (S.erase c).contains c = false := by
      simpa using hce
    rw [show (removeSubscriber S c).2 = S.erase c from rfl]
    simp only [addSubscriber, hcont, Bool.false_eq_true, if_false, List.mem_append,
      List.mem_singleton, hnd.mem_erase_iff]
    tauto
  · intro hc
    have hcont : S.contains c = true := by simpa using hc
    rw [show addSubscriber S c
        = if S.contains c = true then S else S ++ [c] from rfl, if_pos hcont]

/-- The effect of one delivery's catch handler on the subscriber set: erase
the chat id exactly when the failure carries the 403 signal. -/
lemma dispatch_step_eq (send : Int → SendResult) (cur : List Int) (c : Int) :
    (match send c with
      | SendResult.ok => cur
      | SendResult.errStatus code =>
        if code == some 403 then cur.erase c else cur)
      = if isForbidden (send c) then cur.erase c else cur := by
  cases h : send c with
  | ok => simp [isForbidden]
  | errStatus code =>
    cases code with
    | none => simp [isForbidden]
    | some n =>
      by_cases hn : n = 403 <;> simp [isForbidden, hn]

/-- Closed form of the dispatch fold: every snapshot member is attempted in
order, and the final subscriber set is the starting one with each forbidden
delivery's id erased. -/
lemma dispatchAlert_foldl (send : Int → SendResult) :
    ∀ (l a cur : List Int),
      l.foldl
        (fun (acc : List Int × List Int) chatId =>
          ( acc.1 ++ [chatId]
          , match send chatId with
            | SendResult.ok => acc.2
            | SendResult.errStatus code =>
              if code == some 403 then acc.2.erase chatId else acc.2 ))
        (a, cur)
      = (a ++ l,
         (l.filter (fun c => isForbidden (send c))).foldl
           (fun s c => s.erase c) cur) := by
  intro l
  induction l with
  | nil => intro a cur; simp
  | cons x xs ih =>
    intro a cur
    rw [List.foldl_cons, dispatch_step_eq send cur x]
    by_cases hx : isForbidden (send x) = true
    · rw [if_pos hx, ih]
      simp [List.filter_cons, hx]
    · rw [if_neg hx, ih]
      simp only [List.filter_cons, hx]
      simp

/-- On a duplicate-free list, a predicate holding at `c0` and nowhere else
filters down to exactly `[c0]`. -/
lemma filter_eq_singleton_of_unique (p : Int → Bool) :
    ∀ (l : List Int), l.Nodup → ∀ c0, c0 ∈ l → p c0 = true →
      (∀ c ∈ l, c ≠ c0 → p c = false) → l.filter p = [c0] := by
  intro l
  induction l with
  | nil => intro _ c0 h; simp at h
  | cons x xs ih =>
    intro hnd c0 hc0 hp hothers
    have hnd1 := List.nodup_cons.mp hnd
    rcases List.mem_cons.mp hc0 with rfl | hmem
    · have hrest : xs.filter p = [] := by
        rw [List.filter_eq_nil]
        intro c hc
        have : c ≠ c0 := fun he => hnd1.1 (he ▸ hc)
        simp [hothers c (List.mem_cons_of_mem _ hc) this]
      simp [List.filter_cons, hp, hrest]
    · have hx : x ≠ c0 := fun he => hnd1.1 (he ▸ hmem)
      have hpx : p x = false := hothers x (List.mem_cons_self x xs) hx
      rw [List.filter_cons]
      simp only [hpx, Bool.false_eq_true, if_false]
      exact ih hnd1.2 c0 hmem hp
        (fun c hc hne => hothers c (List.mem_cons_of_mem _ hc) hne)

/-- C4: the fan-out attempts delivery to every subscriber in the snapshot no
matter which deliveries fail; after a dispatch where exactly one subscriber
fails with the 403 "forbidden" signal, that subscriber alone is removed, and
non-403 failures leave the subscriber set unchanged. -/
theorem c4_dispatch_isolation (subs : List Int) (send : Int → SendResult) :
    (dispatchAlert send subs).1 = subs
    ∧ (∀ c0, subs.Nodup → c0 ∈ subs →
        send c0 = SendResult.errStatus (some 403) →
        (∀ c ∈ subs, c ≠ c0 → isForbidden (send c) = false) →
        (dispatchAlert send subs).2 = subs.erase c0)
    ∧ ((∀ c ∈ subs, isForbidden (send c) = false) →
        (dispatchAlert send subs).2 = subs) := by
  refine ⟨?_, ?_, ?_⟩
  · rw [dispatchAlert, dispatchAlert_foldl send subs [] subs]
    simp
  · intro c0 hnd hc0 h403 hothers
    have hp : isForbidden (send c0) = true := by simp [h403, isForbidden]
    rw [dispatchAlert, dispatchAlert_foldl send subs [] subs]
    rw [filter_eq_singleton_of_unique _ subs hnd c0 hc0 hp hothers]
    simp
  · intro hnone
    have hfil : subs.filter (fun c => isForbidden (send c)) = [] := by
      rw [List.filter_eq_nil]
      intro c hc
      simp [hnone c hc]
    rw [dispatchAlert, dispatchAlert_foldl send subs [] subs, hfil]
    simp

/-- Running the retry loop through `j` consecutive rate-limited failures and
then a success: each failure adds one invocation, one backoff delay
`min(1000·2^attempt, 8000)` at the then-current attempt number, and one
endpoint rotation; the success adds the final invocation and returns its
value. -/
lemma retryLoop_throttled_then_ok {α : Type} (cfg : Config)
    (ops : Nat → OpResult α) (v : α) :
    ∀ (j fuel attempt : Nat) (le : Option String) (tr : RetryTrace),
      (∀ i, i < j → ∃ m, ops (tr.calls + i) = OpResult.err m
        ∧ isRateLimitMsg m = true) →
      ops (tr.calls + j) = OpResult.ok v →
      j < fuel →
      retryLoop cfg ops fuel attempt le tr =
        (RetryOutcome.value v,
         ⟨tr.calls + j + 1,
          tr.delays ++ (List.range j).map (fun i => backoffDelay (attempt + i)),
          (rotateRpcEndpoint cfg)^[j] tr.rpcIndex,
          tr.rotations + j⟩) := by
  intro j
  induction j with
  | zero =>
    intro fuel attempt le tr _ hok hfuel
    obtain ⟨f, rfl⟩ : ∃ f, fuel = f + 1 := ⟨fuel - 1, by omega⟩
    obtain ⟨cs, ds, ri, ro⟩ := tr
    simp only [Nat.add_zero] at hok
    simp [retryLoop, hok]
  | succ j ih =>
    intro fuel attempt le tr hfails hok hfuel
    obtain ⟨f, rfl⟩ : ∃ f, fuel = f + 1 := ⟨fuel - 1, by omega⟩
    obtain ⟨m0, hm0, hm0r⟩ := hfails 0 (Nat.succ_pos j)
    obtain ⟨cs, ds, ri, ro⟩ := tr
    simp only [Nat.add_zero] at hm0
    have step : retryLoop cfg ops (f + 1) attempt le ⟨cs, ds, ri, ro⟩ =
        retryLoop cfg ops f (attempt + 1) (some m0)
          ⟨cs + 1, ds ++ [backoffDelay attempt],
           rotateRpcEndpoint cfg ri, ro + 1⟩ := by
      simp [retryLoop, hm0, hm0r]
    rw [step, ih f (attempt + 1) (some m0)
      ⟨cs + 1, ds ++ [backoffDelay attempt], rotateRpcEndpoint cfg ri, ro + 1⟩
      (fun i hi => by
        obtain ⟨m, hm, hmr⟩ := hfails (i + 1) (by omega)
        exact ⟨m, by rw [show cs + 1 + i = cs + (i + 1) by omega]; exact hm, hmr⟩)
      (by rw [show cs + 1 + j = cs + (j + 1) by omega]; exact hok)
      (by omega)]
    have hfun : ((fun i => backoffDelay (attempt + i)) ∘ Nat.succ)
        = (fun i => backoffDelay (attempt + 1 + i)) := by
      funext i
      simp only [Function.comp_apply]
      congr 1
      omega
    have hmap : (List.range (j + 1)).map (fun i => backoffDelay (attempt + i))
        = backoffDelay attempt
          :: (List.range j).map (fun i => backoffDelay (attempt + 1 + i)) := by
      rw [List.range_succ_eq_map, List.map_cons, List.map_map, hfun]
      simp
    rw [hmap]
    simp only [Prod.mk.injEq, RetryTrace.mk.injEq, true_and]
    refine ⟨by omega, by simp, by simp [Function.iterate_succ_apply], by omega⟩

/-- C2 counterexample: with the configured `maxRetries = 3`, a wrapped
operation that is rate-limited on its first 3 invocations and would succeed
on the 4th never reaches the success — the loop makes exactly `maxRetries`
invocations (not `maxRetries + 1`) and rethrows the last rate-limit error. -/
theorem c2_counterexample :
    retryOperation CONFIG
        (fun i => if i < 3 then OpResult.err "429 Too Many Requests"
                  else OpResult.ok (42 : Nat)) 0
      = (RetryOutcome.thrown (some "429 Too Many Requests"),
         ⟨3, [2000, 4000, 8000], 0, 3⟩)
    ∧ (3 : Nat) ≠ CONFIG.maxRetries + 1 := by
  decide

/-- C2 (amended): for every sequence of `maxRetries - 1` consecutive
Throttled (rate-limited) failures followed by one success, `retryOperation`
returns the successful result, the wrapped operation is invoked exactly
`maxRetries` times, and the endpoint-rotation cursor is advanced exactly once
per Throttled failure (`maxRetries - 1` rotations in all). -/
theorem c2_retry_success_bound {α : Type} (cfg : Config)
    (ops : Nat → OpResult α) (v : α) (i0 : Nat)
    (h1 : 1 ≤ cfg.maxRetries)
    (h2 : ∀ i, i < cfg.maxRetries - 1 →
      ∃ m, ops i = OpResult.err m ∧ isRateLimitMsg m = true)
    (h3 : ops (cfg.maxRetries - 1) = OpResult.ok v) :
    retryOperation cfg ops i0 =
      (RetryOutcome.value v,
       ⟨cfg.maxRetries,
        (List.range (cfg.maxRetries - 1)).map (fun i => backoffDelay (1 + i)),
        (rotateRpcEndpoint cfg)^[cfg.maxRetries - 1] i0,
        cfg.maxRetries - 1⟩) := by
  rw [retryOperation,
    retryLoop_throttled_then_ok cfg ops v (cfg.maxRetries - 1) cfg.maxRetries 1
      none ⟨0, [], i0, 0⟩
      (fun i hi => by simpa using h2 i (by simpa using hi))
      (by simpa using h3) (by omega)]
  have hcalls : 0 + (cfg.maxRetries - 1) + 1 = cfg.maxRetries := by omega
  have hrot : 0 + (cfg.maxRetries - 1) = cfg.maxRetries - 1 := by omega
  simp [hcalls, hrot]
  omega

/-- Witness for C2's amended theorem at the concrete configuration: two
rate-limited failures then a success give the value back after exactly
3 invocations, backoffs 2000 ms and 4000 ms, and 2 rotations. -/
theorem c2_retry_success_bound_witness :
    retryOperation CONFIG
        (fun i => if i < 2 then OpResult.err "429" else OpResult.ok (42 : Nat)) 0
      = (RetryOutcome.value 42, ⟨3, [2000, 4000], 0, 2⟩) := by
  have h := c2_retry_success_bound CONFIG
    (fun i => if i < 2 then OpResult.err "429" else OpResult.ok (42 : Nat))
    42 0 (by decide)
    (fun i hi => by
      have h2 : i < 2 := hi
      exact ⟨"429", by simp [h2], by decide⟩)
    (by decide)
  rw [h]
  decide

/-- C6: `retryOperation` classifies each failure of the wrapped operation
into exactly three cases — a rate-limited failure records a backoff of
`min(1000·2^attempt, 8000)` ms and rotates the endpoint cursor before the
next attempt; a "fetch failed" failure retries immediately with no backoff
and no rotation; and any other failure is rethrown at once, so a fatal error
on the first invocation propagates after exactly one call with no backoff and
no rotation. -/
theorem c6_error_classification {α : Type} (cfg : Config)
    (ops : Nat → OpResult α) (fuel attempt : Nat) (le : Option String)
    (tr : RetryTrace) (m : String)
    (hop : ops tr.calls = OpResult.err m) :
    (isRateLimitMsg m = true →
      retryLoop cfg ops (fuel + 1) attempt le tr =
        retryLoop cfg ops fuel (attempt + 1) (some m)
          ⟨tr.calls + 1, tr.delays ++ [min (1000 * 2 ^ attempt) 8000],
           rotateRpcEndpoint cfg tr.rpcIndex, tr.rotations + 1⟩)
    ∧ (isRateLimitMsg m = false → strIncludes m "fetch failed" = true →
      retryLoop cfg ops (fuel + 1) attempt le tr =
        retryLoop cfg ops fuel (attempt + 1) (some m)
          ⟨tr.calls + 1, tr.delays, tr.rpcIndex, tr.rotations⟩)
    ∧ (isRateLimitMsg m = false → strIncludes m "fetch failed" = false →
      retryLoop cfg ops (fuel + 1) attempt le tr =
        (RetryOutcome.thrown (some m),
         ⟨tr.calls + 1, tr.delays, tr.rpcIndex, tr.rotations⟩))
    ∧ (∀ i0, ops 0 = OpResult.err m → isRateLimitMsg m = false →
        strIncludes m "fetch failed" = false → 1 ≤ cfg.maxRetries →
        retryOperation cfg ops i0 =
          (RetryOutcome.thrown (some m), ⟨1, [], i0, 0⟩)) := by
  obtain ⟨cs, ds, ri, ro⟩ := tr
  refine ⟨?_, ?_, ?_, ?_⟩
  · intro hr
    simp [retryLoop, hop, hr, backoffDelay]
  · intro hr hf
    simp [retryLoop, hop, hr, hf]
  · intro hr hf
    simp [retryLoop, hop, hr, hf]
  · intro i0 hop0 hr hf hm
    obtain ⟨k, hk⟩ : ∃ k, cfg.maxRetries = k + 1 := ⟨cfg.maxRetries - 1, by omega⟩
    rw [retryOperation, hk]
    simp [retryLoop, hop0, hr, hf]

/-- Witness for C6 at a concrete fatal error: a failure that is neither
rate-limited nor "fetch failed" is propagated after a single invocation. -/
theorem c6_error_classification_witness :
    retryOperation CONFIG (fun _ => OpResult.err "boom" : Nat → OpResult Nat) 0
      = (RetryOutcome.thrown (some "boom"), ⟨1, [], 0, 0⟩) :=
  (c6_error_classification CONFIG (fun _ => OpResult.err "boom") 2 1 none
    ⟨0, [], 0, 0⟩ "boom" rfl).2.2.2 0 rfl (by decide) (by decide) (by decide)

/-- A fully-populated sample canonical record used to exercise the formatter;
its field strings avoid the digit sequences of the amounts under test. -/
def sampleTx50 : TxRecord :=
  { wallet := "AAAAAAAAAAAA"
    signature := "SIGX"
    type := "TOKEN_PURCHASE"
    timestamp := "2024-01-01 00:00:00"
    status := "confirmed"
    amount := some 50
    receiver := none
    tokenMint := some "BBBBBBBBBBBB"
    dex := "Raydium"
    createdAt := 0 }

/-- `sampleTx50` with the amount raised above the claimed alert threshold. -/
def sampleTx1500 : TxRecord := { sampleTx50 with amount := some 1500 }

/-- A transaction block renders without throwing whenever both optional
fields are present. -/
lemma txBlock_ok_of_some (tx : TxRecord) (hA : tx.amount.isSome = true)
    (hM : tx.tokenMint.isSome = true) : ∃ b, txBlock tx = Except.ok b := by
  obtain ⟨mint, hm⟩ := Option.isSome_iff_exists.mp hM
  obtain ⟨amt, ha⟩ := Option.isSome_iff_exists.mp hA
  simp only [txBlock, hm, ha]
  exact ⟨_, rfl⟩

/-- Folding ok-producing blocks over `Except` never throws. -/
lemma foldlM_blocks_ok :
    ∀ (l : List TxRecord) (init : String),
      (∀ tx ∈ l, ∃ b, txBlock tx = Except.ok b) →
      ∃ s, l.foldlM (fun msg tx => (txBlock tx).map (fun b => msg ++ b)) init
            = Except.ok s := by
  intro l
  induction l with
  | nil => intro init _; exact ⟨init, rfl⟩
  | cons x xs ih =>
    intro init hall
    obtain ⟨b, hb⟩ := hall x (List.mem_cons_self x xs)
    obtain ⟨s, hs⟩ := ih (init ++ b)
      (fun tx htx => hall tx (List.mem_cons_of_mem _ htx))
    refine ⟨s, ?_⟩
    simp only [List.foldlM, hb, Except.map]
    exact hs

/-- C5 counterexample: a canonical transaction whose optional `amount`
(resp. `tokenMint`) is missing makes `formatAlert` throw a `TypeError`
instead of omitting that line. -/
theorem c5_counterexample :
    formatAlert [{ sampleTx50 with amount := none }]
      = Except.error "TypeError: amount is null"
    ∧ formatAlert [{ sampleTx50 with tokenMint := none }]
      = Except.error "TypeError: tokenMint is null" :=
  ⟨rfl, rfl⟩

/-- C5 (amended): `formatAlert` returns the single "no new activity" payload
on the empty sequence, and returns a payload without throwing for every
sequence of transactions whose `amount` and `tokenMint` are both present; a
missing optional field throws a `TypeError` rather than being omitted. -/
theorem c5_formatter_totality :
    formatAlert [] = Except.ok "🔍 No new token purchases detected."
    ∧ ∀ (txs : List TxRecord),
        (∀ tx ∈ txs, tx.amount.isSome = true ∧ tx.tokenMint.isSome = true) →
        ∃ s, formatAlert txs = Except.ok s := by
  constructor
  · rfl
  · intro txs hall
    match txs with
    | [] => exact ⟨_, rfl⟩
    | x :: xs =>
      have hlen : ¬ (x :: xs).length = 0 := by simp
      rw [formatAlert, if_neg hlen]
      exact foldlM_blocks_ok (x :: xs) _ (fun tx htx =>
        txBlock_ok_of_some tx (hall tx htx).1 (hall tx htx).2)

/-- Witness for C5's amended theorem on a concrete record. -/
theorem c5_formatter_totality_witness :
    ∃ s, formatAlert [sampleTx50] = Except.ok s :=
  c5_formatter_totality.2 [sampleTx50] (by decide)

/-- C8 counterexample: the rendered blocks for the amount-50 and amount-1500
transactions share one common prefix and suffix, differing only in the
displayed amount — the formatter attaches no higher-severity tag to the
1500-amount transaction and no threshold is consulted. -/
theorem c8_counterexample :
    ∃ before after : String,
      txBlock sampleTx50 = Except.ok (before ++ "50" ++ after)
      ∧ txBlock sampleTx1500 = Except.ok (before ++ "1,500" ++ after) := by
  refine ⟨"*Wallet:* `AAAAAA...AAAA`\n*DEX:* Raydium\n*Time:* 2024-01-01 00:00:00\n*Token:* `BBBBBB...BBBB`\n*Amount:* ",
    " tokens\n[View Transaction](https://solscan.io/tx/SIGX)\n[View Token](https://solscan.io/token/BBBBBBBBBBBB)\n➖➖➖➖➖➖➖➖➖➖\n",
    ?_, ?_⟩ <;> rfl

/-- C8 (amended): on the two transactions with amounts 50 and 1500, the
formatter produces one payload rendering both through the same template with
no per-transaction severity class; the blocks are identical apart from the
displayed amount. -/
theorem c8_uniform_formatting :
    formatAlert [sampleTx50, sampleTx1500] =
      Except.ok ("🚨 *New Token Purchases Detected* 🚨\n\n"
        ++ "*Wallet:* `AAAAAA...AAAA`\n*DEX:* Raydium\n*Time:* 2024-01-01 00:00:00\n*Token:* `BBBBBB...BBBB`\n*Amount:* 50 tokens\n[View Transaction](https://solscan.io/tx/SIGX)\n[View Token](https://solscan.io/token/BBBBBBBBBBBB)\n➖➖➖➖➖➖➖➖➖➖\n"
        ++ "*Wallet:* `AAAAAA...AAAA`\n*DEX:* Raydium\n*Time:* 2024-01-01 00:00:00\n*Token:* `BBBBBB...BBBB`\n*Amount:* 1,500 tokens\n[View Transaction](https://solscan.io/tx/SIGX)\n[View Token](https://solscan.io/token/BBBBBBBBBBBB)\n➖➖➖➖➖➖➖➖➖➖\n") :=
  rfl

/-- Witness for C3's amended theorem: insert at time 0 with the configured
expiry — a query at exactly 3600000 hits, a query at 3600001 misses. -/
theorem c3_cache_expiry_witness :
    ((TransactionCache.set ⟨[], 3600000⟩ "s" (0 : Nat) 0).get "s" 3600000).1
        = some 0
    ∧ ((TransactionCache.set ⟨[], 3600000⟩ "s" (0 : Nat) 0).get "s" 3600001).1
        = none := by
  constructor
  · exact ((c3_cache_expiry ⟨[], 3600000⟩ "s" 0 0 3600000 (by decide)
      (by decide)).1 (by decide)).1
  · exact ((c3_cache_expiry ⟨[], 3600000⟩ "s" 0 0 3600001 (by decide)
      (by decide)).2.1 (by decide)).1

/-- Witness for C4 on the spec's own example: three subscribers where only
the second delivery fails with 403 — all three are attempted and the set
afterward holds exactly the first and third. -/
theorem c4_dispatch_isolation_witness :
    (dispatchAlert
        (fun c => if c = 2 then SendResult.errStatus (some 403) else SendResult.ok)
        [1, 2, 3]).1 = [1, 2, 3]
    ∧ (dispatchAlert
        (fun c => if c = 2 then SendResult.errStatus (some 403) else SendResult.ok)
        [1, 2, 3]).2 = [1, 3] := by
  constructor
  · exact (c4_dispatch_isolation [1, 2, 3]
      (fun c => if c = 2 then SendResult.errStatus (some 403) else SendResult.ok)).1
  · have h := (c4_dispatch_isolation [1, 2, 3]
      (fun c => if c = 2 then SendResult.errStatus (some 403) else SendResult.ok)).2.1
      2 (by decide) (by decide) (by decide) (by decide)
    rw [h]
    decide

/-- Witness for C10 on a concrete three-member subscriber set. -/
theorem c10_subscriber_set_witness :
    ((removeSubscriber [1, 2, 3] 2).1 = true ↔ (2 : Int) ∈ [1, 2, 3])
    ∧ (∀ x, x ∈ (removeSubscriber [1, 2, 3] 2).2 ↔ x ∈ [1, 2, 3] ∧ x ≠ 2)
    ∧ (∀ x, x ∈ addSubscriber (removeSubscriber [1, 2, 3] 2).2 2
        ↔ x ∈ [1, 2, 3] ∨ x = 2)
    ∧ ((2 : Int) ∈ [1, 2, 3] → addSubscriber [1, 2, 3] 2 = [1, 2, 3]) :=
  c10_subscriber_set [1, 2, 3] 2 (by decide)

/-- Unfolding of one `getToken` iteration. -/
lemma getToken_succ (fuel : Nat) (s : RateLimiter) (now : Nat)
    (wakes : List Nat) :
    getToken (fuel + 1) s now wakes =
      (if (refillCheck s now).tokens ≤ 0 then
        match wakes with
        | [] => none
        | w :: rest =>
          if wakeTarget (refillCheck s now) now ≤ w then
            getToken fuel (refillCheck s now) w rest
          else none
      else
        some ({ refillCheck s now with
                  tokens := (refillCheck s now).tokens - 1 }, now)) := rfl

/-- While the current window has not elapsed, the wait branch schedules its
wake-up for the end of the window. -/
lemma wakeTarget_eq (s : RateLimiter) (now : Nat)
    (h0 : s.lastRefill ≤ now) (h1 : now ≤ s.lastRefill + s.timeWindow) :
    wakeTarget s now = s.lastRefill + s.timeWindow := by
  unfold wakeTarget
  omega

/-- C9: from a fresh bucket with capacity 5 and window 1000 ms, each of the
first five acquisitions returns immediately at its own call time and consumes
exactly one token, and a sixth acquisition made while the window is still
open never returns before the window has elapsed — and does return once a
wake-up strictly after the window boundary arrives, consuming one token from
the refilled bucket. -/
theorem c9_rate_limiter (t0 : Nat) :
    (∀ k tk, k < 5 → t0 ≤ tk → tk ≤ t0 + 1000 →
      getToken 1 ⟨5 - (k : Int), 5, 1000, t0⟩ tk []
        = some (⟨5 - (k : Int) - 1, 5, 1000, t0⟩, tk))
    ∧ (∀ t6 fuel wakes s r, t0 ≤ t6 → t6 ≤ t0 + 1000 →
        getToken fuel ⟨0, 5, 1000, t0⟩ t6 wakes = some (s, r) →
        t0 + 1000 < r)
    ∧ (∀ t6, t0 ≤ t6 → t6 ≤ t0 + 1000 →
        getToken 2 ⟨0, 5, 1000, t0⟩ t6 [t0 + 1001]
          = some (⟨4, 5, 1000, t0 + 1001⟩, t0 + 1001)) := by
  refine ⟨?_, ?_, ?_⟩
  · intro k tk hk h0 h1
    have hrc : refillCheck ⟨5 - (k : Int), 5, 1000, t0⟩ tk
        = ⟨5 - (k : Int), 5, 1000, t0⟩ := by
      unfold refillCheck
      rw [if_neg]
      simp only
      omega
    have htok : ¬ ((5 - (k : Int)) ≤ 0) := by
      have hk5 : (k : Int) < 5 := by exact_mod_cast hk
      omega
    rw [show (1 : Nat) = 0 + 1 from rfl, getToken_succ, hrc]
    simp only [htok, if_false]
  · intro t6 fuel
    induction fuel generalizing t6 with
    | zero =>
      intro wakes s r _ _ h
      simp [getToken] at h
    | succ f ih =>
      intro wakes s r h0 h1 h
      have hrc : refillCheck ⟨0, 5, 1000, t0⟩ t6 = ⟨0, 5, 1000, t0⟩ := by
        unfold refillCheck
        rw [if_neg]
        simp only
        omega
      rw [getToken_succ, hrc] at h
      simp only [show ((0 : Int) ≤ 0) = True by simp, if_true] at h
      match wakes with
      | [] => exact absurd h (by simp)
      | w :: rest =>
        have htarget : wakeTarget ⟨0, 5, 1000, t0⟩ t6 = t0 + 1000 :=
          wakeTarget_eq _ _ h0 h1
        have h2 : (if wakeTarget ⟨0, 5, 1000, t0⟩ t6 ≤ w then
            getToken f ⟨0, 5, 1000, t0⟩ w rest else none) = some (s, r) := h
        rw [htarget] at h2
        by_cases hw : t0 + 1000 ≤ w
        · rw [if_pos hw] at h2
          by_cases hw2 : w ≤ t0 + 1000
          · exact ih w rest s r (by omega) hw2 h2
          · match f with
            | 0 => exact absurd h2 (by simp [getToken])
            | f' + 1 =>
              have hrc2 : refillCheck ⟨0, 5, 1000, t0⟩ w
                  = ⟨5, 5, 1000, w⟩ := by
                unfold refillCheck
                rw [if_pos]
                simp only
                omega
              rw [getToken_succ, hrc2] at h2
              simp only [show ¬ ((5 : Int) ≤ 0) by omega, if_false] at h2
              have hpair : ((⟨5 - 1, 5, 1000, w⟩ : RateLimiter), w) = (s, r) :=
                Option.some.inj h2
              have hr : r = w := (congrArg Prod.snd hpair).symm
              omega
        · rw [if_neg hw] at h2
          exact absurd h2 (by simp)
  · intro t6 h0 h1
    have hrc : refillCheck ⟨0, 5, 1000, t0⟩ t6 = ⟨0, 5, 1000, t0⟩ := by
      unfold refillCheck
      rw [if_neg]
      simp only
      omega
    have htarget : wakeTarget ⟨0, 5, 1000, t0⟩ t6 = t0 + 1000 :=
      wakeTarget_eq _ _ h0 h1
    rw [show (2 : Nat) = 1 + 1 from rfl, getToken_succ, hrc]
    simp only [show ((0 : Int) ≤ 0) = True by simp, if_true, htarget]
    rw [if_pos (by omega : t0 + 1000 ≤ t0 + 1001)]
    have hrc2 : refillCheck ⟨0, 5, 1000, t0⟩ (t0 + 1001) = ⟨5, 5, 1000, t0 + 1001⟩ := by
      unfold refillCheck
      rw [if_pos]
      simp only
      omega
    rw [show (1 : Nat) = 0 + 1 from rfl, getToken_succ, hrc2]
    simp only [show ¬ ((5 : Int) ≤ 0) by omega, if_false]
    norm_num

/-- Witness for C9 at concrete times: the first acquisition from the fresh
bucket returns at once with one token consumed, and a sixth-style acquisition
from the empty bucket at time 500 succeeds exactly at the wake-up 1001,
strictly after the window boundary 1000. -/
theorem c9_rate_limiter_witness :
    getToken 1 ⟨5, 5, 1000, 0⟩ 0 [] = some (⟨4, 5, 1000, 0⟩, 0)
    ∧ getToken 2 ⟨0, 5, 1000, 0⟩ 500 [1001] = some (⟨4, 5, 1000, 1001⟩, 1001) := by
  constructor
  · have h := (c9_rate_limiter 0).1 0 0 (by decide) (by decide) (by decide)
    norm_num at h
    exact h
  · have h := (c9_rate_limiter 0).2.2 500 (by decide) (by decide)
    norm_num at h
    exact h

/-- Every canonical record built from a list of transfers carries the
transaction's DEX tag and the transfer's decimal-adjusted amount. -/
lemma buildRecords_fields (cfg : Config) (walletAddress sig : String)
    (tx : SolTx) (now : Nat) (ts : List TokenTransfer) :
    (buildRecords cfg walletAddress sig tx now ts).map TxRecord.dex
        = ts.map (fun _ => identifyDex cfg tx)
    ∧ (buildRecords cfg walletAddress sig tx now ts).map TxRecord.amount
        = ts.map (fun t => some t.amount) := by
  constructor
  · induction ts with
    | nil => rfl
    | cons a l ih =>
      simp only [buildRecords, List.map_cons] at ih ⊢
      rw [ih]
  · induction ts with
    | nil => rfl
    | cons a l ih =>
      simp only [buildRecords, List.map_cons] at ih ⊢
      rw [ih]

/-- C7: the DEX-swap parser produces records only for transactions whose
account keys touch a known swap program and that show at least one
token-balance increase above the configured minimum; every returned transfer
corresponds to such a qualifying increase with the decimal-adjusted amount;
transactions touching no known program, or with no qualifying increase,
yield no output at all; and the canonical records built from a successful
parse all carry the matched DEX tag (never "Unknown DEX"). -/
theorem c7_dex_swap_detection (tx : SolTx) (meta : Option TxMeta)
    (walletAddress sig : String) (now : Nat) :
    (∀ ts, parseTokenTransfer CONFIG tx meta = some ts →
      ts ≠ []
      ∧ (∃ msg, tx.message = some msg
          ∧ msg.accountKeys.any
              (fun key => CONFIG.knownDexPrograms.contains key) = true)
      ∧ (∀ t ∈ ts, ∃ msg m posts pres,
          tx.message = some msg ∧ meta = some m
          ∧ m.postTokenBalances = some posts
          ∧ m.preTokenBalances = some pres
          ∧ ∃ post ∈ posts, ∃ pre ∈ pres,
              pre.accountIndex = post.accountIndex
              ∧ ∃ postAmt preAmt,
                  post.uiTokenAmount.amount = some postAmt
                  ∧ pre.uiTokenAmount.amount = some preAmt
                  ∧ CONFIG.minTokenAmount < postAmt - preAmt
                  ∧ t.mint = post.mint
                  ∧ t.amount = (postAmt - preAmt)
                      / 10 ^ (post.uiTokenAmount.decimals.getD 0))
      ∧ identifyDex CONFIG tx ≠ "Unknown DEX"
      ∧ (buildRecords CONFIG walletAddress sig tx now ts).map TxRecord.dex
          = ts.map (fun _ => identifyDex CONFIG tx)
      ∧ (buildRecords CONFIG walletAddress sig tx now ts).map TxRecord.amount
          = ts.map (fun t => some t.amount))
    ∧ (∀ msg, tx.message = some msg →
        msg.accountKeys.any
          (fun key => CONFIG.knownDexPrograms.contains key) = false →
        parseTokenTransfer CONFIG tx meta = none)
    ∧ (∀ msg m posts pres, tx.message = some msg → meta = some m →
        m.postTokenBalances = some posts → m.preTokenBalances = some pres →
        extractTransfers CONFIG msg.accountKeys posts pres = [] →
        parseTokenTransfer CONFIG tx meta = none) := by
  refine ⟨?_, ?_, ?_⟩
  · intro ts hts
    rcases meta with _ | m
    · rcases htm : tx.message with _ | msg <;>
        simp [parseTokenTransfer, htm] at hts
    rcases htm : tx.message with _ | msg
    · simp [parseTokenTransfer, htm] at hts
    rcases hpo : m.postTokenBalances with _ | posts
    · simp [parseTokenTransfer, htm, hpo] at hts
    rcases hpr : m.preTokenBalances with _ | pres
    · simp [parseTokenTransfer, htm, hpo, hpr] at hts
    simp only [parseTokenTransfer, htm, hpo, hpr] at hts
    by_cases hdex : msg.accountKeys.any
        (fun key => CONFIG.knownDexPrograms.contains key) = true
    case neg =>
      rw [if_neg hdex] at hts
      exact absurd hts (by simp)
    rw [if_pos hdex] at hts
    by_cases hlen :
        0 < (extractTransfers CONFIG msg.accountKeys posts pres).length
    case neg =>
      rw [if_neg hlen] at hts
      exact absurd hts (by simp)
    rw [if_pos hlen] at hts
    have hts' : extractTransfers CONFIG msg.accountKeys posts pres = ts :=
      Option.some.inj hts
    have hid : identifyDex CONFIG tx ≠ "Unknown DEX" := by
      obtain ⟨key, hkmem, hkc⟩ := List.any_eq_true.mp hdex
      simp only [identifyDex, htm]
      by_cases h0c : containsIdx msg.accountKeys CONFIG.knownDexPrograms 0 = true
      · simp [h0c]
      by_cases h1c : containsIdx msg.accountKeys CONFIG.knownDexPrograms 1 = true
      · simp [h0c, h1c]
      by_cases h2c : containsIdx msg.accountKeys CONFIG.knownDexPrograms 2 = true
      · simp [h0c, h1c, h2c]
      exfalso
      have hk3 : key = "9xQeWvG816bUx9EPjHmaT23yvVM2ZWbrrpZb9PusVFin"
          ∨ key = "675kPX9MHTjS2zt1qfr1NYHuzeLXfQM9H24wFSUt1Mp8"
          ∨ key = "JUP4Fb2cqiRUcaTHdrPC8h2gNsA2ETXiPDD33WcGuJB" := by
        simpa [CONFIG] using hkc
      rcases hk3 with rfl | rfl | rfl
      · exact h0c (by simpa [containsIdx, CONFIG] using hkmem)
      · exact h1c (by simpa [containsIdx, CONFIG] using hkmem)
      · exact h2c (by simpa [containsIdx, CONFIG] using hkmem)
    refine ⟨?_, ⟨msg, rfl, hdex⟩, ?_, hid, ?_, ?_⟩
    · rw [← hts']
      exact List.ne_nil_of_length_pos hlen
    · intro t ht
      rw [← hts', extractTransfers] at ht
      obtain ⟨post, hpostmem, hf⟩ := List.mem_filterMap.mp ht
      refine ⟨msg, m, posts, pres, rfl, rfl, hpo, hpr, post, hpostmem, ?_⟩
      simp only [] at hf
      rcases hfind : pres.find?
          (fun pre => pre.accountIndex == post.accountIndex) with _ | pre
      · simp [hfind] at hf
      rcases hpa : post.uiTokenAmount.amount with _ | postAmt
      · simp [hfind, hpa] at hf
      rcases hpb : pre.uiTokenAmount.amount with _ | preAmt
      · simp [hfind, hpa, hpb] at hf
      simp only [hfind, hpa, hpb] at hf
      by_cases hgt : CONFIG.minTokenAmount < postAmt - preAmt
      · rw [if_pos hgt] at hf
        have ht2 := Option.some.inj hf
        refine ⟨pre, List.mem_of_find?_eq_some hfind,
          by simpa using List.find?_some hfind,
          postAmt, preAmt, rfl, hpb, hgt, ?_, ?_⟩
        · rw [← ht2]
        · rw [← ht2]
      · rw [if_neg hgt] at hf
        exact absurd hf (by simp)
    · exact (buildRecords_fields CONFIG walletAddress sig tx now ts).1
    · exact (buildRecords_fields CONFIG walletAddress sig tx now ts).2
  · intro msg htm hany
    have hany' : ¬ (msg.accountKeys.any
        (fun key => CONFIG.knownDexPrograms.contains key) = true) := by
      rw [hany]
      simp
    rcases meta with _ | m
    · simp [parseTokenTransfer, htm]
    rcases hpo : m.postTokenBalances with _ | posts
    · simp [parseTokenTransfer, htm, hpo]
    rcases hpr : m.preTokenBalances with _ | pres
    · simp [parseTokenTransfer, htm, hpo, hpr]
    simp only [parseTokenTransfer, htm, hpo, hpr]
    rw [if_neg hany']
  · intro msg m posts pres htm hme hpo hpr hext
    subst hme
    by_cases hdex : msg.accountKeys.any
        (fun key => CONFIG.knownDexPrograms.contains key) = true
    · simp [parseTokenTransfer, htm, hpo, hpr, hdex, hext]
    · simp only [parseTokenTransfer, htm, hpo, hpr]
      rw [if_neg hdex]

/-- A concrete fetched transaction touching the Raydium program with one
token-balance increase of 200 raw units (decimals 0) on account index 1. -/
def sampleDexTx : SolTx :=
  { message := some ⟨["9xQeWvG816bUx9EPjHmaT23yvVM2ZWbrrpZb9PusVFin", "RecvAcct"]⟩
    meta := some { postTokenBalances := some [⟨1, "MintM", ⟨some 200, some 0⟩⟩]
                   preTokenBalances := some [⟨1, "MintM", ⟨some 0, some 0⟩⟩] }
    blockTime := some 1700000000 }

/-- Witness for C7: on `sampleDexTx` the parse succeeds, the identified DEX is
a known one, and the built record carries that tag. -/
theorem c7_dex_swap_detection_witness :
    identifyDex CONFIG sampleDexTx ≠ "Unknown DEX"
    ∧ (buildRecords CONFIG "WalletB" "SIG1" sampleDexTx 0
        [⟨"MintM", 200, some "RecvAcct", 0⟩]).map TxRecord.dex
      = [identifyDex CONFIG sampleDexTx] := by
  have hparse : parseTokenTransfer CONFIG sampleDexTx sampleDexTx.meta
      = some [⟨"MintM", 200, some "RecvAcct", 0⟩] := by
    simp only [sampleDexTx, parseTokenTransfer, extractTransfers,
      List.filterMap_cons, List.filterMap_nil, List.find?]
    norm_num [CONFIG]
  have h := (c7_dex_swap_detection sampleDexTx sampleDexTx.meta
    "WalletB" "SIG1" 0).1 [⟨"MintM", 200, some "RecvAcct", 0⟩] hparse
  refine ⟨h.2.2.2.1, ?_⟩
  simpa using h.2.2.2.2.1

/-- The configuration of the C1 failing input: two tracked wallets. -/
def c1cfg : Config := { CONFIG with trackedWallets := ["WalletA", "WalletB"] }

/-- The RPC oracle of the C1 failing input: one signature whose transaction is
`sampleDexTx`, for whichever address is queried. -/
def c1oracle : RpcOracle :=
  { signaturesFor := fun _ => ["SIG1"]
    getTx := fun s => if s = "SIG1" then some sampleDexTx else none }

/-- C1 (the code at the failing input): `getWalletTransactions` declares no
parameter and ignores the wallet its caller passes — invoked for "WalletA"
while the random draw selects index 1, it queries and labels activity of
"WalletB": every returned record's `wallet` field is "WalletB", not the
requested "WalletA". -/
theorem c1_random_wallet_bug :
    ((getWalletTransactions c1cfg c1oracle ⟨[], CONFIG.cacheExpiry⟩ 1 0
        "WalletA").1.map (fun r => r.wallet)) = ["WalletB"]
    ∧ "WalletB" ≠ "WalletA" := by
  constructor
  · have hparse : parseTokenTransfer c1cfg sampleDexTx sampleDexTx.meta
        = some [⟨"MintM", 200, some "RecvAcct", 0⟩] := by
      simp only [sampleDexTx, parseTokenTransfer, extractTransfers,
        List.filterMap_cons, List.filterMap_nil, List.find?]
      norm_num [c1cfg, CONFIG]
    have hproc : processSignature c1cfg c1oracle "WalletB" 0 "SIG1"
        = some (buildRecords c1cfg "WalletB" "SIG1" sampleDexTx 0
            [⟨"MintM", 200, some "RecvAcct", 0⟩]) := by
      simp only [processSignature, c1oracle, hparse]
      norm_num [hparse]
    have hw : c1cfg.trackedWallets.get? 1 = some "WalletB" := rfl
    have hs : c1oracle.signaturesFor "WalletB" = ["SIG1"] := rfl
    simp only [getWalletTransactions, hw, hs, TransactionCache.get, List.foldl,
      List.find?, List.filterMap, hproc]
    norm_num [buildRecords]
  · decide
